import Mathlib

/-!
Verification of `scripts/make_header.py`.

The script builds an xkcd-style header image for a blog: it lists the posts
whose filenames start with a `YYYY-MM-DD` date, parses those dates, computes
day offsets against a reference date, extracts each post's title from its
content, filters and sorts the (title, offset) pairs, and renders a line chart
with a callout showing the days since the most recent post.

This file gives a shallow embedding of the script's pure logic:
  * directory listings are lists of entry-name strings;
  * a post's content is the list of its lines (without the trailing newline;
    the `title:` marker contains no newline and `strip()` discards it, so
    nothing is lost by dropping the terminators);
  * Python exceptions are modelled by `Option` results (`none` = the call
    raises);
  * machine integers are `Int`/`Nat` (Python ints are unbounded, so no
    wrap-around modelling is needed).
-/

namespace MakeHeader

/-! ### Characters and digits

`re.match(r'\d{4}-\d{2}-\d{2}', s)` in the script tests the first ten
characters of `s`.  `\d` is modelled as an ASCII decimal digit (code points
48–57), the only digits that occur in the repository's filenames. -/

/-- ASCII decimal digit test, the model of `\d`. -/
def isDigitChar (c : Char) : Bool :=
  48 ≤ c.toNat && c.toNat ≤ 57

/-- Numeric value of an ASCII digit character. -/
def digitVal (c : Char) : Nat :=
  c.toNat - 48

/-! ### `date_match` and `list_posts` -/

/-- Embedding of `date_match` (line 21): `re.match(r'\d{4}-\d{2}-\d{2}', s)`
succeeds iff the first ten characters of `s` are four digits, a dash, two
digits, a dash and two digits; the rest of the string is unconstrained.
`true` models a match object, `false` models `None`. -/
def date_match (s : List Char) : Bool :=
  match s with
  | y1 :: y2 :: y3 :: y4 :: s1 :: m1 :: m2 :: s2 :: d1 :: d2 :: _ =>
    isDigitChar y1 && isDigitChar y2 && isDigitChar y3 && isDigitChar y4 &&
    s1 == '-' &&
    isDigitChar m1 && isDigitChar m2 &&
    s2 == '-' &&
    isDigitChar d1 && isDigitChar d2
  | _ => false

/-- Embedding of `list_posts` (lines 24-34).  The `os.listdir` result is the
`listing` argument; the function keeps exactly the entries whose name matches
the leading date pattern. -/
def list_posts (listing : List String) : List String :=
  listing.filter (fun post => date_match post.data)

/-- The spec's wording for a valid post identifier: the first ten characters
parse as `YYYY-MM-DD`, i.e. positions 0-3, 5-6 and 8-9 hold digits and
positions 4 and 7 hold dashes.  Written independently of `date_match`, from
the spec's description, for the refinement theorem of claim C8. -/
def leadingDateSpec (s : String) : Prop :=
  10 ≤ s.data.length ∧
  (∀ i, i ∈ ([0, 1, 2, 3, 5, 6, 8, 9] : List Nat) →
    ∃ c, s.data[i]? = some c ∧ isDigitChar c = true) ∧
  s.data[4]? = some '-' ∧ s.data[7]? = some '-'

/-! ### Date parsing (`extract_dates`) and formatting

`extract_dates` runs `dt.datetime.strptime(date_match(post).group(), '%Y-%m-%d')`
on each listed post.  The match group is exactly the first ten characters of
the name; `strptime` additionally validates that they denote a real calendar
date (year 1-9999, month 1-12, day within the month) and raises `ValueError`
otherwise, modelled by `none`.  The round-trip direction `strftime('%Y-%m-%d')`
is modelled as zero-padded fixed-width decimal, the format documented for the
`%Y`/`%m`/`%d` directives. -/

/-- Gregorian leap-year rule, as used by `datetime`. -/
def isLeapYear (y : Nat) : Bool :=
  (y % 4 == 0 && y % 100 != 0) || y % 400 == 0

/-- Number of days in month `m` of year `y`, as used by `datetime`. -/
def daysInMonth (y m : Nat) : Nat :=
  if m == 2 then (if isLeapYear y then 29 else 28)
  else if m == 4 || m == 6 || m == 9 || m == 11 then 30
  else 31

/-- Model of `dt.datetime.strptime(s, '%Y-%m-%d')` on a ten-character input:
the parsed `(year, month, day)` triple, or `none` when the shape or the
calendar validation fails (Python raises `ValueError`). -/
def strptime_ymd (s : List Char) : Option (Nat × Nat × Nat) :=
  match s with
  | y1 :: y2 :: y3 :: y4 :: s1 :: m1 :: m2 :: s2 :: d1 :: d2 :: [] =>
    if isDigitChar y1 && isDigitChar y2 && isDigitChar y3 && isDigitChar y4 &&
       s1 == '-' &&
       isDigitChar m1 && isDigitChar m2 &&
       s2 == '-' &&
       isDigitChar d1 && isDigitChar d2 then
      let y := 1000 * digitVal y1 + 100 * digitVal y2 + 10 * digitVal y3 + digitVal y4
      let m := 10 * digitVal m1 + digitVal m2
      let d := 10 * digitVal d1 + digitVal d2
      if 1 ≤ y ∧ 1 ≤ m ∧ m ≤ 12 ∧ 1 ≤ d ∧ d ≤ daysInMonth y m then
        some (y, m, d)
      else none
    else none
  | _ => none

/-- One element of `extract_dates` (line 46):
`dt.datetime.strptime(date_match(post).group(), '%Y-%m-%d')`.  When
`date_match` fails, `.group()` is called on `None` and raises
(`AttributeError`), modelled by `none`. -/
def extract_date (post : List Char) : Option (Nat × Nat × Nat) :=
  if date_match post then strptime_ymd (post.take 10) else none

/-- Embedding of `extract_dates` (lines 37-47): the list comprehension raises
as soon as one element does, hence the monadic map over `Option`. -/
def extract_dates (posts : List (List Char)) : Option (List (Nat × Nat × Nat)) :=
  posts.mapM extract_date

/-- Two-digit zero-padded decimal, the model of `%m` / `%d` formatting. -/
def pad2 (n : Nat) : List Char :=
  Char.ofNat (48 + n / 10 % 10) :: Char.ofNat (48 + n % 10) :: []

/-- Four-digit zero-padded decimal, the model of `%Y` formatting. -/
def pad4 (n : Nat) : List Char :=
  Char.ofNat (48 + n / 1000 % 10) :: Char.ofNat (48 + n / 100 % 10) ::
  Char.ofNat (48 + n / 10 % 10) :: Char.ofNat (48 + n % 10) :: []

/-- Model of `strftime('%Y-%m-%d')` on a parsed `(year, month, day)` triple. -/
def strftime_ymd (t : Nat × Nat × Nat) : List Char :=
  pad4 t.1 ++ '-' :: pad2 t.2.1 ++ '-' :: pad2 t.2.2

/-! ### Title extraction (`extract_title`, lines 77-98)

The Python loop reads lines until it finds one containing `title:`, until the
line counter exceeds 10, or until end of file.  The counter is incremented
after the check, and the substring test is evaluated before the counter test,
so lines 1 through 12 are examined.  The chosen line (or the sentinel
`'UH OH!'` when none was chosen) is then stripped and every occurrence of
`'title: '` is deleted by `re.sub`. -/

/-- Does a line contain the substring `title:`?  Model of Python's `in`. -/
def hasTitle (line : String) : Bool :=
  line.data.tails.any (fun t => List.isPrefixOf ("title:".data) t)

/-- The scanning loop of `extract_title`: returns the line the loop breaks on
when it contains `title:`, and `none` when the loop ends by the counter test
(`cnt > 10`) or end of file.  `cnt` starts at 0 and is incremented after each
failed check, exactly as in the source. -/
def scanTitle : List String → Nat → Option String
  | [], _ => none
  | l :: ls, cnt =>
    if hasTitle l then some l
    else if cnt > 10 then none
    else scanTitle ls (cnt + 1)

/-- Python's `str.strip()`: drop whitespace from both ends. -/
def pyStrip (l : List Char) : List Char :=
  ((l.dropWhile Char.isWhitespace).reverse.dropWhile Char.isWhitespace).reverse

/-- Model of `re.sub('title: ', '', l)`: delete every leftmost non-overlapping
occurrence of the seven-character pattern `title: ` (the scan resumes after
each deleted occurrence, it does not rescan the spliced result). -/
def removeMarker : List Char → List Char
  | 't' :: 'i' :: 't' :: 'l' :: 'e' :: ':' :: ' ' :: rest => removeMarker rest
  | c :: cs => c :: removeMarker cs
  | [] => []

/-- Embedding of `extract_title` on a post's content given as its list of
lines: scan for the `title:` line, substitute the sentinel when none was
found, then strip and delete the `'title: '` occurrences. -/
def extract_title (content : List String) : String :=
  let line : String :=
    match scanTitle content 0 with
    | some l => l
    | none => "UH OH!"
  String.mk (removeMarker (pyStrip line.data))

/-! ### Filtering and sorting (`filter_titles`, lines 101-120)

The loop keeps the `(title, delta)` pairs with `delta > cutoff`, storing
`delta + 1`; `sorted(zip(...), key=lambda x: x[1])` then sorts the pairs by
their second component.  Python's `sorted` is stable; `List.insertionSort`
with the non-strict key order has the same stability property.
`zip(*sorted_pairs)` followed by unpacking into two variables raises
`ValueError` when `sorted_pairs` is empty (zero tuples cannot be unpacked
into two names), modelled by `none`. -/

/-- The comparison `sorted` uses: non-strict order on the second component
(the adjusted day offset). -/
def byDelta : String × Int → String × Int → Prop :=
  fun p q => p.2 ≤ q.2

instance : DecidableRel byDelta :=
  fun p q => inferInstanceAs (Decidable (p.2 ≤ q.2))

instance : IsTotal (String × Int) byDelta :=
  ⟨fun p q => Int.le_total p.2 q.2⟩

instance : IsTrans (String × Int) byDelta :=
  ⟨fun _ _ _ h h' => Int.le_trans h h'⟩

/-- The pairs the loop of `filter_titles` keeps, in input order: the zipped
`(title, delta)` pairs with `delta > cutoff`, with the stored offset
`delta + 1`. -/
def kept_pairs (post_titles : List String) (deltas : List Int) (cutoff : Int) :
    List (String × Int) :=
  ((post_titles.zip deltas).filter (fun p => p.2 > cutoff)).map
    (fun p => (p.1, p.2 + 1))

/-- The local `sorted_pairs` of `filter_titles`:
`sorted(zip(filtered_titles, filtered_deltas), key=lambda x: x[1])`. -/
def sorted_pairs (post_titles : List String) (deltas : List Int) (cutoff : Int) :
    List (String × Int) :=
  List.insertionSort byDelta (kept_pairs post_titles deltas cutoff)

/-- Embedding of `filter_titles`.  `none` models the `ValueError` raised by
`filtered_titles, filtered_deltas = [list(tup) for tup in zip(*sorted_pairs)]`
when every pair was filtered out: `zip(*[])` yields zero tuples, which cannot
be unpacked into the two names. -/
def filter_titles (post_titles : List String) (deltas : List Int) (cutoff : Int) :
    Option (List String × List Int) :=
  if (sorted_pairs post_titles deltas cutoff).isEmpty then none
  else some ((sorted_pairs post_titles deltas cutoff).map Prod.fst,
             (sorted_pairs post_titles deltas cutoff).map Prod.snd)

/-! ### The renderer's arithmetic (`line_plot`, lines 123-175)

Only the computations of `line_plot` are embedded: the x-axis window, the
counts histogram (`collections.Counter`), the maximum count, and the callout
strings.  The matplotlib drawing calls have no computational content. -/

/-- Embedding of `x_vals = [i for i in range(cutoff, 0, 1)]`: the integers from `cutoff`
up to `-1`; empty when `cutoff ≥ 0`. -/
def x_vals (cutoff : Int) : List Int :=
  (List.range (0 - cutoff).toNat).map (fun (i : Nat) => cutoff + (i : Int))

/-- Embedding of `Counter(deltas)[x]`: how many offsets equal `x` (0 when absent). -/
def y_counts (deltas : List Int) (x : Int) : Nat :=
  deltas.count x

/-- Embedding of `y_vals = [y_counts[x] for x in x_vals]`. -/
def y_vals (deltas : List Int) (cutoff : Int) : List Nat :=
  (x_vals cutoff).map (y_counts deltas)

/-- Embedding of `max_y_val = max(y_vals)`: `none` models the `ValueError` Python's `max`
raises on an empty sequence. -/
def max_y_val (deltas : List Int) (cutoff : Int) : Option Nat :=
  (y_vals deltas cutoff).max?

/-- The callout text (lines 165-170): `str(abs(deltas[-1]))` when any offsets
remain, else `'+' + str(abs(cutoff))`. -/
def last_post_days (deltas : List Int) (cutoff : Int) : String :=
  match deltas.getLast? with
  | some d => toString d.natAbs
  | none => "+" ++ toString cutoff.natAbs

/-- The numeric value `int(last_post_days)` used for the mood test.  Python's
`int` accepts an optional leading `+`, so on both branches it recovers the
absolute day count: `int(str(abs(d))) = abs(d)` and
`int('+' + str(abs(cutoff))) = abs(cutoff)`. -/
def last_days_count (deltas : List Int) (cutoff : Int) : Nat :=
  match deltas.getLast? with
  | some d => d.natAbs
  | none => cutoff.natAbs

/-- The mood string (line 172):
`'"Nice!"' if int(last_post_days) < 14 else '"UH OH!"'` (the rendered text
carries literal double quotes). -/
def exclam (deltas : List Int) (cutoff : Int) : String :=
  if last_days_count deltas cutoff < 14 then "\"Nice!\"" else "\"UH OH!\""

/-! ## Theorems -/

/-! ### The title-scan window -/

/-- The scanning loop, started at counter value `cnt ≤ 11`, returns the first
line containing `title:` among the next `12 - cnt` lines. -/
theorem scanTitle_eq_find (ls : List String) :
    ∀ cnt : Nat, cnt ≤ 11 →
      scanTitle ls cnt = (ls.take (12 - cnt)).find? hasTitle := by
  induction ls with
  | nil =>
    intro cnt _
    simp [scanTitle]
  | cons l ls ih =>
    intro cnt hcnt
    have h12 : 12 - cnt = (11 - cnt) + 1 := by omega
    rw [h12, List.take_succ_cons]
    by_cases hl : hasTitle l
    · simp [scanTitle, hl, List.find?]
    · by_cases hc : cnt > 10
      · have hc11 : cnt = 11 := by omega
        subst hc11
        simp [scanTitle, hl, List.find?]
      · have step : scanTitle (l :: ls) cnt = scanTitle ls (cnt + 1) := by
          simp [scanTitle, hl, hc]
        rw [step, ih (cnt + 1) (by omega)]
        have harg : 12 - (cnt + 1) = 11 - cnt := by omega
        rw [harg]
        simp [List.find?, hl]

/-- If no line of the content contains `title:`, the scan finds nothing. -/
theorem scanTitle_none_of_no_title :
    ∀ (ls : List String) (cnt : Nat), (∀ l ∈ ls, hasTitle l = false) →
      scanTitle ls cnt = none := by
  intro ls
  induction ls with
  | nil => intro cnt _; simp [scanTitle]
  | cons l ls ih =>
    intro cnt hno
    have hl : hasTitle l = false := hno l (by simp)
    by_cases hc : cnt > 10
    · simp [scanTitle, hl, hc]
    · have step : scanTitle (l :: ls) cnt = scanTitle ls (cnt + 1) := by
        simp [scanTitle, hl, hc]
      rw [step]
      exact ih (cnt + 1) (fun x hx => hno x (by simp [hx]))

/-- Claim C2 (corrected): `extract_title` scans the first 12 lines of the
content (the counter is compared only after the substring test, so the line
read at counter value 11 — the twelfth line — is still examined).  If some
line among the first 12 contains `title:`, the result is the first such line,
whitespace-trimmed and with every occurrence of `title: ` deleted; otherwise
the result is the sentinel `UH OH!`. -/
theorem c2_extract_title_window (content : List String) :
    (∀ l, (content.take 12).find? hasTitle = some l →
      extract_title content = String.mk (removeMarker (pyStrip l.data))) ∧
    ((content.take 12).find? hasTitle = none →
      extract_title content = "UH OH!") := by
  have hs : scanTitle content 0 = (content.take 12).find? hasTitle :=
    scanTitle_eq_find content 0 (by omega)
  constructor
  · intro l hl
    unfold extract_title
    rw [hs, hl]
  · intro hn
    unfold extract_title
    rw [hs, hn]
    decide

/-- Witness for C2's theorem: a content whose second line is
`title: My Post` yields the title `My Post`. -/
theorem c2_witness :
    extract_title ["---", "title: My Post", "layout: post"] = "My Post" := by
  have h := (c2_extract_title_window ["---", "title: My Post", "layout: post"]).1
    ("title: My Post") (by decide)
  rw [h]
  decide

/-- Counterexample to claim C2 as stated: a `title:` line in position 12 —
beyond the claimed 11-line window — is still found, so the claim's second
half (`no title within the first 11 lines implies the sentinel`) is false. -/
theorem c2_counterexample :
    ((List.replicate 11 "filler" ++ ["title: Deep"]).take 11).all
      (fun l => !(hasTitle l)) = true ∧
    extract_title (List.replicate 11 "filler" ++ ["title: Deep"]) = "Deep" := by
  constructor
  · decide
  · decide

/-- Claim C9: on the matched line, the `re.sub('title: ', '', ...)` in
`extract_title` deletes every occurrence of the exact substring `title: `
from the trimmed line: a marker written `title:` with no following space is
left in the result, and a `title: ` occurring inside the title text is also
removed. -/
theorem c9_marker_removal :
    extract_title ["title:NoSpace"] = "title:NoSpace" ∧
    extract_title ["title: A title: B"] = "A B" ∧
    extract_title ["   title: Padded   "] = "Padded" := by
  refine ⟨by decide, by decide, by decide⟩

/-- Claim C10: when the content ends before the line-scan limit and no line
contains `title:`, `extract_title` terminates and returns the sentinel. -/
theorem c10_eof_sentinel (content : List String)
    (_hlen : content.length ≤ 11)
    (hno : ∀ l ∈ content, hasTitle l = false) :
    extract_title content = "UH OH!" := by
  unfold extract_title
  rw [scanTitle_none_of_no_title content 0 hno]
  decide

/-- Witness for C10's theorem: the empty content (an empty post file). -/
theorem c10_witness :
    ([] : List String).length ≤ 11 ∧ extract_title [] = "UH OH!" :=
  ⟨by decide, c10_eof_sentinel [] (by decide) (by intro l hl; cases hl)⟩

/-! ### Empty input: the pipeline crash and the renderer's max -/

/-- Claim C1 (the code contradicts it): evaluating the pipeline's stages on
the empty-posts run.  `filter_titles` on empty inputs raises (`none`), so the
run aborts before the renderer; had the renderer been reached with empty
inputs, it would indeed have produced the all-zero histogram over the 30-day
window and the callout `+30` with mood `"UH OH!"`. -/
theorem c1_empty_run_eval :
    filter_titles [] [] (-30) = none ∧
    y_vals [] (-30) = List.replicate 30 0 ∧
    last_post_days [] (-30) = "+30" ∧
    exclam [] (-30) = "\"UH OH!\"" := by
  refine ⟨by decide, by decide, by decide, by decide⟩

/-- Folding `max` from `0` over zeros yields `0`. -/
theorem foldl_max_zero : ∀ n : Nat, List.foldl max 0 (List.replicate n (0 : Nat)) = 0 := by
  intro n
  induction n with
  | zero => rfl
  | succ k ih => simpa [List.replicate_succ] using ih

/-- Maximum of a nonempty all-zero list is `some 0`. -/
theorem max?_replicate_zero (n : Nat) (h : 0 < n) :
    (List.replicate n (0 : Nat)).max? = some 0 := by
  cases n with
  | zero => omega
  | succ k =>
    rw [List.replicate_succ]
    simp [List.max?, foldl_max_zero]

/-- Claim C3 (corrected): with zero posts after filtering, the renderer's
`max(y_vals)` does not fail — `y_vals` is built over the whole window
`range(cutoff, 0)`, which for any negative cutoff is nonempty, so the
maximum exists and equals 0. -/
theorem c3_empty_histogram_max (cutoff : Int) (h : cutoff < 0) :
    max_y_val [] cutoff = some 0 := by
  have hcount : y_counts ([] : List Int) = (fun _ : Int => (0 : Nat)) :=
    funext (fun _ => rfl)
  have hy : y_vals [] cutoff = List.replicate (x_vals cutoff).length 0 := by
    unfold y_vals
    rw [hcount, List.map_const']
  have hlen : (x_vals cutoff).length = (0 - cutoff).toNat := by
    unfold x_vals
    rw [List.length_map, List.length_range]
  unfold max_y_val
  rw [hy, hlen]
  exact max?_replicate_zero _ (by omega)

/-- Witness for C3's theorem at the default cutoff `-30`. -/
theorem c3_witness : (-30 : Int) < 0 ∧ max_y_val [] (-30) = some 0 :=
  ⟨by decide, c3_empty_histogram_max (-30) (by decide)⟩

/-- Counterexample to claim C3 as stated: at the default cutoff the max
computation over the empty-posts histogram succeeds (it does not raise) and
returns 0. -/
theorem c3_counterexample : max_y_val [] (-30) = some 0 := by
  decide

/-- Claim C6: the callout box shows the absolute value of the last element of
the offset list when one exists, else `+` followed by the absolute cutoff;
the mood string is `"Nice!"` when that absolute day count is under 14 and
`"UH OH!"` otherwise (the rendered strings carry literal double quotes). -/
theorem c6_callout_mood (deltas : List Int) (cutoff : Int) :
    (∀ d : Int, deltas.getLast? = some d →
      last_post_days deltas cutoff = toString d.natAbs ∧
      exclam deltas cutoff =
        (if d.natAbs < 14 then "\"Nice!\"" else "\"UH OH!\"")) ∧
    (deltas.getLast? = none →
      last_post_days deltas cutoff = "+" ++ toString cutoff.natAbs ∧
      exclam deltas cutoff =
        (if cutoff.natAbs < 14 then "\"Nice!\"" else "\"UH OH!\"")) := by
  constructor
  · intro d hd
    unfold last_post_days exclam last_days_count
    rw [hd]
    exact ⟨rfl, rfl⟩
  · intro hn
    unfold last_post_days exclam last_days_count
    rw [hn]
    exact ⟨rfl, rfl⟩

/-- Witness for C6's theorem: most recent offset `-10`, so the callout shows
`10` and the mood is `"Nice!"`; with both posts outside 14 days the mood is
`"UH OH!"`. -/
theorem c6_witness :
    last_post_days [-20, -10] (-30) = "10" ∧ exclam [-20, -10] (-30) = "\"Nice!\"" := by
  have h := (c6_callout_mood [-20, -10] (-30)).1 (-10) (by decide)
  refine ⟨h.1, ?_⟩
  rw [h.2]
  decide

/-! ### Filtering and sorting: C4 and C5 -/

/-- Inserting a pair into a list keeps the sublist of any fixed offset value
intact, putting the new pair in front exactly when it carries that value:
the elements `orderedInsert` passes over are strictly smaller in the key. -/
theorem filter_byDelta_orderedInsert (v : Int) (a : String × Int)
    (s : List (String × Int)) :
    (List.orderedInsert byDelta a s).filter (fun p => p.2 == v) =
      if a.2 == v then a :: s.filter (fun p => p.2 == v)
      else s.filter (fun p => p.2 == v) := by
  induction s with
  | nil =>
    by_cases ha : (a.2 == v) <;> simp [List.orderedInsert, List.filter, ha]
  | cons b t ih =>
    by_cases hab : byDelta a b
    · have hin : List.orderedInsert byDelta a (b :: t) = a :: b :: t := by
        simp [List.orderedInsert, hab]
      rw [hin]
      by_cases ha : (a.2 == v) <;> by_cases hb : (b.2 == v) <;>
        simp [List.filter, ha, hb]
    · have hin : List.orderedInsert byDelta a (b :: t) =
          b :: List.orderedInsert byDelta a t := by
        simp [List.orderedInsert, hab]
      rw [hin]
      by_cases ha : (a.2 == v) <;> by_cases hb : (b.2 == v)
      · exfalso
        apply hab
        show a.2 ≤ b.2
        have ha' : a.2 = v := by rwa [beq_iff_eq] at ha
        have hb' : b.2 = v := by rwa [beq_iff_eq] at hb
        omega
      · simp [List.filter, ha, hb, ih]
      · simp [List.filter, ha, hb, ih]
      · simp [List.filter, ha, hb, ih]

/-- Stability of the sort in `filter_titles`: for every offset value `v`, the
pairs carrying `v` appear in the sorted output in their input order. -/
theorem filter_byDelta_insertionSort (v : Int) (l : List (String × Int)) :
    (List.insertionSort byDelta l).filter (fun p => p.2 == v) =
      l.filter (fun p => p.2 == v) := by
  induction l with
  | nil => rfl
  | cons a t ih =>
    show (List.orderedInsert byDelta a (List.insertionSort byDelta t)).filter
        (fun p => p.2 == v) = _
    rw [filter_byDelta_orderedInsert]
    by_cases ha : (a.2 == v) <;> simp [List.filter, ha, ih]

/-- Rejoining the two projections of `filter_titles`' result gives back the
sorted pair list. -/
theorem zip_map_fst_snd_pairs (l : List (String × Int)) :
    (l.map Prod.fst).zip (l.map Prod.snd) = l := by
  have h := List.zip_unzip l
  rwa [List.unzip_eq_map] at h

/-- The `some` results of `filter_titles` are the projections of the sorted
pair list. -/
theorem filter_titles_eq_some (ts : List String) (ds : List Int) (c : Int)
    (titles : List String) (offs : List Int)
    (h : filter_titles ts ds c = some (titles, offs)) :
    titles = (sorted_pairs ts ds c).map Prod.fst ∧
    offs = (sorted_pairs ts ds c).map Prod.snd := by
  unfold filter_titles at h
  by_cases he : (sorted_pairs ts ds c).isEmpty
  · rw [if_pos he] at h
    cases h
  · rw [if_neg he] at h
    have h' := Option.some.inj h
    exact ⟨(Prod.mk.inj h'.symm).1, (Prod.mk.inj h'.symm).2⟩

/-- Claim C4 (corrected): `filter_titles` raises — it returns no result —
exactly when every post is excluded (its raw offset is `≤ cutoff`); whenever
it does return, the returned title/offset pairs are exactly the pairs with
raw offset `> cutoff`, each stored offset being the raw offset plus one (up
to the sort's reordering). -/
theorem c4_filter_titles_characterization (ts : List String) (ds : List Int) (c : Int) :
    (filter_titles ts ds c = none ↔ (ts.zip ds).filter (fun p => p.2 > c) = []) ∧
    (∀ titles offs, filter_titles ts ds c = some (titles, offs) →
      List.Perm (titles.zip offs)
        (((ts.zip ds).filter (fun p => p.2 > c)).map (fun p => (p.1, p.2 + 1)))) := by
  constructor
  · unfold filter_titles
    by_cases he : (sorted_pairs ts ds c).isEmpty
    · rw [if_pos he]
      have hk : kept_pairs ts ds c = [] := by
        have hsp : sorted_pairs ts ds c = [] := by
          rwa [List.isEmpty_iff] at he
        have hlen := (List.perm_insertionSort byDelta (kept_pairs ts ds c)).symm.length_eq
        rw [show List.insertionSort byDelta (kept_pairs ts ds c) = sorted_pairs ts ds c
            from rfl, hsp] at hlen
        exact List.eq_nil_of_length_eq_zero (by simpa using hlen)
      unfold kept_pairs at hk
      simp only [true_iff]
      exact (List.map_eq_nil_iff).1 hk
    · rw [if_neg he]
      constructor
      · intro h; cases h
      · intro hfilter
        exfalso
        apply he
        rw [List.isEmpty_iff]
        have : kept_pairs ts ds c = [] := by
          unfold kept_pairs
          rw [hfilter]
          rfl
        show List.insertionSort byDelta (kept_pairs ts ds c) = []
        rw [this]
        rfl
  · intro titles offs h
    obtain ⟨ht, ho⟩ := filter_titles_eq_some ts ds c titles offs h
    rw [ht, ho, zip_map_fst_snd_pairs]
    exact List.perm_insertionSort byDelta (kept_pairs ts ds c)

/-- Witness for C4's theorem: one post five days old, kept with offset `-4`. -/
theorem c4_witness :
    List.Perm ((["a"]).zip ([(-4 : Int)]))
      ((((["a"]).zip ([(-5 : Int)])).filter (fun p => p.2 > (-30 : Int))).map
        (fun p => (p.1, p.2 + 1))) :=
  (c4_filter_titles_characterization ["a"] [-5] (-30)).2 ["a"] [-4] (by decide)

/-- Counterexample to claim C4 as stated: with a single post older than the
cutoff, `filter_titles` does not return the empty filtered sequences the
universally-quantified claim describes — it raises (`none`), because the
result of `zip(*[])` cannot be unpacked. -/
theorem c4_counterexample : filter_titles ["a"] [(-40 : Int)] (-30) = none := by
  decide

/-- Claim C5: on every non-empty filtered result, the offsets are
non-decreasing, the title/offset pairs are a permutation of the kept input
pairs, and pairs with equal offsets keep their input order (stability of the
sort). -/
theorem c5_filter_titles_sorted_stable (ts : List String) (ds : List Int) (c : Int)
    (titles : List String) (offs : List Int)
    (h : filter_titles ts ds c = some (titles, offs)) :
    offs.Pairwise (fun a b : Int => a ≤ b) ∧
    List.Perm (titles.zip offs) (kept_pairs ts ds c) ∧
    (∀ v : Int, (titles.zip offs).filter (fun p => p.2 == v) =
      (kept_pairs ts ds c).filter (fun p => p.2 == v)) := by
  obtain ⟨ht, ho⟩ := filter_titles_eq_some ts ds c titles offs h
  have hzip : titles.zip offs = sorted_pairs ts ds c := by
    rw [ht, ho, zip_map_fst_snd_pairs]
  refine ⟨?_, ?_, ?_⟩
  · rw [ho]
    have hsorted : List.Sorted byDelta (sorted_pairs ts ds c) :=
      List.sorted_insertionSort byDelta (kept_pairs ts ds c)
    exact List.Pairwise.map Prod.snd (fun p q hpq => hpq) hsorted
  · rw [hzip]
    exact List.perm_insertionSort byDelta (kept_pairs ts ds c)
  · intro v
    rw [hzip]
    exact filter_byDelta_insertionSort v (kept_pairs ts ds c)

/-- Witness for C5's theorem: posts at raw offsets `-5, -3, -5` produce the
stably sorted offsets `-4, -4, -2`, which are non-decreasing. -/
theorem c5_witness : ([-4, -4, -2] : List Int).Pairwise (fun a b : Int => a ≤ b) :=
  (c5_filter_titles_sorted_stable ["a", "b", "c"] [-5, -3, -5] (-30)
    ["a", "c", "b"] [-4, -4, -2] (by decide)).1

/-! ### Date round-trip: C7 -/

/-- Code-point bounds of an ASCII digit. -/
theorem digit_bounds (c : Char) (h : isDigitChar c = true) :
    48 ≤ c.toNat ∧ c.toNat ≤ 57 := by
  simpa [isDigitChar, Bool.and_eq_true, decide_eq_true_eq] using h

/-- Formatting the value of four parsed digit characters with `%Y`
reproduces the characters. -/
theorem pad4_digitVal (a b c d : Char)
    (ha : isDigitChar a = true) (hb : isDigitChar b = true)
    (hc : isDigitChar c = true) (hd : isDigitChar d = true) :
    pad4 (1000 * digitVal a + 100 * digitVal b + 10 * digitVal c + digitVal d) =
      [a, b, c, d] := by
  obtain ⟨ha1, ha2⟩ := digit_bounds a ha
  obtain ⟨hb1, hb2⟩ := digit_bounds b hb
  obtain ⟨hc1, hc2⟩ := digit_bounds c hc
  obtain ⟨hd1, hd2⟩ := digit_bounds d hd
  unfold pad4 digitVal
  have e1 : 48 + (1000 * (a.toNat - 48) + 100 * (b.toNat - 48) + 10 * (c.toNat - 48) +
      (d.toNat - 48)) / 1000 % 10 = a.toNat := by omega
  have e2 : 48 + (1000 * (a.toNat - 48) + 100 * (b.toNat - 48) + 10 * (c.toNat - 48) +
      (d.toNat - 48)) / 100 % 10 = b.toNat := by omega
  have e3 : 48 + (1000 * (a.toNat - 48) + 100 * (b.toNat - 48) + 10 * (c.toNat - 48) +
      (d.toNat - 48)) / 10 % 10 = c.toNat := by omega
  have e4 : 48 + (1000 * (a.toNat - 48) + 100 * (b.toNat - 48) + 10 * (c.toNat - 48) +
      (d.toNat - 48)) % 10 = d.toNat := by omega
  rw [e1, e2, e3, e4, Char.ofNat_toNat, Char.ofNat_toNat, Char.ofNat_toNat,
    Char.ofNat_toNat]

/-- Formatting the value of two parsed digit characters with `%m` / `%d`
reproduces the characters. -/
theorem pad2_digitVal (a b : Char)
    (ha : isDigitChar a = true) (hb : isDigitChar b = true) :
    pad2 (10 * digitVal a + digitVal b) = [a, b] := by
  obtain ⟨ha1, ha2⟩ := digit_bounds a ha
  obtain ⟨hb1, hb2⟩ := digit_bounds b hb
  unfold pad2 digitVal
  have e1 : 48 + (10 * (a.toNat - 48) + (b.toNat - 48)) / 10 % 10 = a.toNat := by omega
  have e2 : 48 + (10 * (a.toNat - 48) + (b.toNat - 48)) % 10 = b.toNat := by omega
  rw [e1, e2, Char.ofNat_toNat, Char.ofNat_toNat]

/-- Claim C7: for every identifier accepted by `date_match`, the date
extracted by `strptime` round-trips — formatting it back as `YYYY-MM-DD`
reproduces the identifier's ten-character prefix. -/
theorem c7_date_roundtrip (post : List Char) (t : Nat × Nat × Nat)
    (h : extract_date post = some t) :
    strftime_ymd t = post.take 10 := by
  unfold extract_date at h
  by_cases hdm : date_match post
  · rw [if_pos hdm] at h
    clear hdm
    generalize hgen : post.take 10 = l at h ⊢
    clear hgen
    rcases l with _ | ⟨y1, _ | ⟨y2, _ | ⟨y3, _ | ⟨y4, _ | ⟨s1, _ | ⟨m1, _ | ⟨m2, _ | ⟨s2, _ | ⟨d1, _ | ⟨d2, _ | ⟨e, rest⟩⟩⟩⟩⟩⟩⟩⟩⟩⟩⟩
    all_goals try exact Option.noConfusion h
    simp only [strptime_ymd] at h
    split_ifs at h with hdig hval
    obtain ⟨⟨⟨⟨⟨⟨⟨⟨⟨hy1, hy2⟩, hy3⟩, hy4⟩, hs1⟩, hm1⟩, hm2⟩, hs2⟩, hd1⟩, hd2⟩ := by
      simpa only [Bool.and_eq_true, beq_iff_eq] using hdig
    subst hs1
    subst hs2
    obtain rfl := Option.some.inj h
    show pad4 _ ++ '-' :: pad2 _ ++ '-' :: pad2 _ = _
    rw [pad4_digitVal y1 y2 y3 y4 hy1 hy2 hy3 hy4, pad2_digitVal m1 m2 hm1 hm2,
      pad2_digitVal d1 d2 hd1 hd2]
    rfl
  · rw [if_neg hdm] at h
    exact Option.noConfusion h

/-- Witness for C7's theorem: the identifier `2020-02-29-leap.md`, whose
prefix is a valid (leap-year) date, round-trips. -/
theorem c7_witness :
    strftime_ymd (2020, 2, 29) = (("2020-02-29-leap.md").data).take 10 :=
  c7_date_roundtrip (("2020-02-29-leap.md").data) (2020, 2, 29) (by decide)

/-! ### The lister: C8 -/

/-- The regex test of `date_match` is equivalent to the spec's index-wise
description of a leading `YYYY-MM-DD` pattern. -/
theorem date_match_iff (l : List Char) :
    date_match l = true ↔
      (10 ≤ l.length ∧
       (∀ i, i ∈ ([0, 1, 2, 3, 5, 6, 8, 9] : List Nat) →
         ∃ c, l[i]? = some c ∧ isDigitChar c = true) ∧
       l[4]? = some '-' ∧ l[7]? = some '-') := by
  rcases l with _ | ⟨y1, _ | ⟨y2, _ | ⟨y3, _ | ⟨y4, _ | ⟨s1, _ | ⟨m1, _ | ⟨m2, _ | ⟨s2, _ | ⟨d1, _ | ⟨d2, rest⟩⟩⟩⟩⟩⟩⟩⟩⟩⟩
  all_goals try (refine iff_of_false ?_ ?_ <;> (simp [date_match]; done))
  constructor
  · intro hdm
    simp only [date_match, Bool.and_eq_true, beq_iff_eq] at hdm
    obtain ⟨⟨⟨⟨⟨⟨⟨⟨⟨hy1, hy2⟩, hy3⟩, hy4⟩, hs1⟩, hm1⟩, hm2⟩, hs2⟩, hd1⟩, hd2⟩ := hdm
    subst hs1
    subst hs2
    refine ⟨by simp, ?_, by simp, by simp⟩
    intro i hi
    simp only [List.mem_cons, List.not_mem_nil, or_false] at hi
    rcases hi with rfl | rfl | rfl | rfl | rfl | rfl | rfl | rfl
    exacts [⟨y1, by simp, hy1⟩, ⟨y2, by simp, hy2⟩, ⟨y3, by simp, hy3⟩,
      ⟨y4, by simp, hy4⟩, ⟨m1, by simp, hm1⟩, ⟨m2, by simp, hm2⟩,
      ⟨d1, by simp, hd1⟩, ⟨d2, by simp, hd2⟩]
  · intro hspec
    obtain ⟨_, hdig, h4, h7⟩ := hspec
    have hs1 : s1 = '-' := by simpa using h4
    have hs2 : s2 = '-' := by simpa using h7
    subst hs1
    subst hs2
    have hy1 : isDigitChar y1 = true := by
      obtain ⟨c, hc, hcd⟩ := hdig 0 (by simp)
      have he : y1 = c := by simpa using hc
      rw [he]
      exact hcd
    have hy2 : isDigitChar y2 = true := by
      obtain ⟨c, hc, hcd⟩ := hdig 1 (by simp)
      have he : y2 = c := by simpa using hc
      rw [he]
      exact hcd
    have hy3 : isDigitChar y3 = true := by
      obtain ⟨c, hc, hcd⟩ := hdig 2 (by simp)
      have he : y3 = c := by simpa using hc
      rw [he]
      exact hcd
    have hy4 : isDigitChar y4 = true := by
      obtain ⟨c, hc, hcd⟩ := hdig 3 (by simp)
      have he : y4 = c := by simpa using hc
      rw [he]
      exact hcd
    have hm1 : isDigitChar m1 = true := by
      obtain ⟨c, hc, hcd⟩ := hdig 5 (by simp)
      have he : m1 = c := by simpa using hc
      rw [he]
      exact hcd
    have hm2 : isDigitChar m2 = true := by
      obtain ⟨c, hc, hcd⟩ := hdig 6 (by simp)
      have he : m2 = c := by simpa using hc
      rw [he]
      exact hcd
    have hd1 : isDigitChar d1 = true := by
      obtain ⟨c, hc, hcd⟩ := hdig 8 (by simp)
      have he : d1 = c := by simpa using hc
      rw [he]
      exact hcd
    have hd2 : isDigitChar d2 = true := by
      obtain ⟨c, hc, hcd⟩ := hdig 9 (by simp)
      have he : d2 = c := by simpa using hc
      rw [he]
      exact hcd
    simp [date_match, hy1, hy2, hy3, hy4, hm1, hm2, hd1, hd2]

/-- Claim C8: `list_posts` returns exactly the entries of the directory
listing whose first ten characters form the `YYYY-MM-DD` pattern; every other
entry is silently excluded. -/
theorem c8_list_posts_exact (listing : List String) (name : String) :
    name ∈ list_posts listing ↔ name ∈ listing ∧ leadingDateSpec name := by
  unfold list_posts leadingDateSpec
  rw [List.mem_filter]
  exact and_congr_right (fun _ => date_match_iff name.data)

end MakeHeader
